import Mathlib

/-!
Shallow embedding of the real-time coordination layer of the chat backend
(socket handler module, Mongoose models, and the REST controllers), together
with proofs about the presence registry, the call lifecycle, the message
delivery pipeline and the in-memory active-call registry.

The JS `Map`s keyed by ids are embedded as association lists over `Nat` keys;
insertion order of entries is irrelevant to every handler modelled here (they
only perform keyed lookups and existence scans), so `alSet` may place the
updated binding at the front.
-/

namespace ChatBackend

abbrev UserId := Nat
abbrev SocketId := Nat
abbrev CallId := Nat
abbrev ConvId := Nat
abbrev MsgId := Nat
abbrev Time := Nat

/-- Association-list lookup: models `Map.get` / `Map.has`. -/
def alLookup {α : Type} : List (Nat × α) → Nat → Option α
  | [], _ => none
  | (k, v) :: rest, k' => if k = k' then some v else alLookup rest k'

/-- Association-list removal of a key: models `Map.delete`. -/
def alDelete {α : Type} : List (Nat × α) → Nat → List (Nat × α)
  | [], _ => []
  | (k, v) :: rest, k' => if k = k' then alDelete rest k' else (k, v) :: alDelete rest k'

/-- Association-list update: models `Map.set`. -/
def alSet {α : Type} (m : List (Nat × α)) (k : Nat) (v : α) : List (Nat × α) :=
  (k, v) :: alDelete m k

theorem alLookup_delete_self {α : Type} (m : List (Nat × α)) (k : Nat) :
    alLookup (alDelete m k) k = none := by
  induction m with
  | nil => rfl
  | cons e rest ih =>
    obtain ⟨a, v⟩ := e
    by_cases h : a = k
    · simpa [alDelete, h] using ih
    · simp [alDelete, alLookup, h, ih]

theorem alLookup_delete_other {α : Type} (m : List (Nat × α)) (k k' : Nat) (h : k' ≠ k) :
    alLookup (alDelete m k) k' = alLookup m k' := by
  induction m with
  | nil => rfl
  | cons e rest ih =>
    obtain ⟨a, v⟩ := e
    by_cases ha : a = k
    · subst ha
      have hne : ¬(a = k') := fun hh => h hh.symm
      simp [alDelete, alLookup, hne, ih]
    · by_cases hak : a = k'
      · subst hak
        simp [alDelete, alLookup, ha]
      · simp [alDelete, alLookup, ha, hak, ih]

theorem alLookup_set_self {α : Type} (m : List (Nat × α)) (k : Nat) (v : α) :
    alLookup (alSet m k v) k = some v := by
  simp [alSet, alLookup]

theorem alLookup_set_other {α : Type} (m : List (Nat × α)) (k k' : Nat) (v : α)
    (h : k' ≠ k) :
    alLookup (alSet m k v) k' = alLookup m k' := by
  have hk : k ≠ k' := fun hh => h hh.symm
  simp [alSet, alLookup, hk, alLookup_delete_other m k k' h]

/-! ## Presence registry (socket handler lines 7-9, 16-22, 402-407) -/

structure Presence where
  onlineUsers : List (UserId × SocketId)
  userSockets : List (SocketId × UserId)
deriving DecidableEq

def Presence.empty : Presence := ⟨[], []⟩

/-- `io.on('connection')` lines 16-22: `onlineUsers.set(userId, socket.id)` and
`userSockets.set(socket.id, userId)`. -/
def connectHandler (st : Presence) (u : UserId) (s : SocketId) : Presence :=
  { onlineUsers := alSet st.onlineUsers u s
    userSockets := alSet st.userSockets s u }

/-- `socket.on('disconnect')` lines 402-407: `onlineUsers.delete(userId)` and
`userSockets.delete(socket.id)`. The deletion is unconditional: the handler never
compares the stored socket id with the disconnecting socket's id. `u` is the user
captured by the closure of the connection that owns socket `s`. -/
def disconnectHandler (st : Presence) (u : UserId) (s : SocketId) : Presence :=
  { onlineUsers := alDelete st.onlineUsers u
    userSockets := alDelete st.userSockets s }

/-- `onlineUsers.get(userId)` (used by every signaling handler, and exported as
`getUserSocketId`). -/
def lookup (st : Presence) (u : UserId) : Option SocketId :=
  alLookup st.onlineUsers u

inductive PresenceEvent where
  | connect (u : UserId) (s : SocketId)
  | disconnect (u : UserId) (s : SocketId)
deriving DecidableEq

def applyPresence (st : Presence) : PresenceEvent → Presence
  | .connect u s => connectHandler st u s
  | .disconnect u s => disconnectHandler st u s

def runPresence (evs : List PresenceEvent) : Presence :=
  evs.foldl applyPresence Presence.empty

/-- Specification-side description of what `lookup` computes on the code as written
(the amended C1): the last connect for the user wins, and any later disconnect for
that user — including one from a superseded socket — clears the mapping. -/
def lookupStep (u : UserId) (acc : Option SocketId) : PresenceEvent → Option SocketId
  | .connect u' s => if u' = u then some s else acc
  | .disconnect u' _ => if u' = u then none else acc

def specLookup (evs : List PresenceEvent) (u : UserId) : Option SocketId :=
  evs.foldl (lookupStep u) none

theorem lookup_apply (st : Presence) (e : PresenceEvent) (u : UserId) :
    lookup (applyPresence st e) u = lookupStep u (lookup st u) e := by
  cases e with
  | connect u' s =>
    by_cases h : u' = u
    · subst h
      simp [applyPresence, connectHandler, lookup, lookupStep, alLookup_set_self]
    · have hu : u ≠ u' := fun hh => h hh.symm
      simp [applyPresence, connectHandler, lookup, lookupStep, h,
        alLookup_set_other st.onlineUsers u' u s hu]
  | disconnect u' s =>
    by_cases h : u' = u
    · subst h
      simp [applyPresence, disconnectHandler, lookup, lookupStep, alLookup_delete_self]
    · have hu : u ≠ u' := fun hh => h hh.symm
      simp [applyPresence, disconnectHandler, lookup, lookupStep, h,
        alLookup_delete_other st.onlineUsers u' u hu]

theorem lookup_foldl (evs : List PresenceEvent) (st : Presence) (u : UserId) :
    lookup (evs.foldl applyPresence st) u = evs.foldl (lookupStep u) (lookup st u) := by
  induction evs generalizing st with
  | nil => rfl
  | cons e rest ih =>
    simp only [List.foldl_cons]
    rw [ih (applyPresence st e), lookup_apply]

/-- C1 (amended): `lookup(userId)` returns the socket id of the most recent connect
for that user, unless any later disconnect event for that user occurred — the
disconnect handler removes the user's mapping unconditionally, so a stale disconnect
from a superseded connection also clears the newer mapping instead of being a no-op. -/
theorem presence_lookup_eq_spec (evs : List PresenceEvent) (u : UserId) :
    lookup (runPresence evs) u = specLookup evs u := by
  simpa [runPresence, specLookup] using lookup_foldl evs Presence.empty u

/-- C1 counterexample: user 1 connects on socket 10, reconnects on socket 20, then
the stale socket 10 disconnects. The claim says the registry mapping is left
unchanged (still socket 20); the code deletes the mapping, leaving the user offline. -/
theorem presence_stale_disconnect_clears_mapping :
    lookup (runPresence [PresenceEvent.connect 1 10, PresenceEvent.connect 1 20]) 1
      = some 20 ∧
    lookup (runPresence [PresenceEvent.connect 1 10, PresenceEvent.connect 1 20,
      PresenceEvent.disconnect 1 10]) 1 = none ∧
    lookup (runPresence [PresenceEvent.connect 1 10, PresenceEvent.connect 1 20,
      PresenceEvent.disconnect 1 10]) 1
      ≠ lookup (runPresence [PresenceEvent.connect 1 10, PresenceEvent.connect 1 20]) 1 := by
  decide

/-! ## Call model (Call schema in part_000, callController in README, socket call
handlers in part_001) -/

inductive PStatus where
  | pending
  | accepted
  | rejected
  | missed
  | busy
deriving DecidableEq

inductive CStatus where
  | ringing
  | ongoing
  | ended
  | missed
  | rejected
deriving DecidableEq

structure CallParticipant where
  user : UserId
  status : PStatus
  joinedAt : Option Time
  leftAt : Option Time
deriving DecidableEq

structure Call where
  caller : UserId
  participants : List CallParticipant
  ctype : String
  isGroupCall : Bool
  status : CStatus
  startedAt : Option Time
  endedAt : Option Time
  duration : Int
deriving DecidableEq

/-- `callSchema.pre('save')` (part_000 lines 65-70):
`if (this.startedAt && this.endedAt) this.duration = Math.floor((endedAt - startedAt) / 1000)`.
Timestamps are milliseconds; `Math.floor` of the quotient is `Int.fdiv`. -/
def preSaveHook (c : Call) : Call :=
  match c.startedAt, c.endedAt with
  | some s, some e => { c with duration := Int.fdiv ((e : Int) - (s : Int)) 1000 }
  | some _, none => c
  | none, _ => c

/-- A Mongoose document `save()` (used by `Call.create` and the REST controllers):
runs the pre-save hook. `findByIdAndUpdate` is a query update and does NOT run this
document middleware. -/
def saveCall (c : Call) : Call := preSaveHook c

theorem saveCall_status (c : Call) : (saveCall c).status = c.status := by
  cases c with
  | mk caller ps t g st sa ea d => cases sa <;> cases ea <;> rfl

theorem saveCall_participants (c : Call) : (saveCall c).participants = c.participants := by
  cases c with
  | mk caller ps t g st sa ea d => cases sa <;> cases ea <;> rfl

theorem saveCall_startedAt (c : Call) : (saveCall c).startedAt = c.startedAt := by
  cases c with
  | mk caller ps t g st sa ea d => cases sa <;> cases ea <;> rfl

theorem saveCall_endedAt (c : Call) : (saveCall c).endedAt = c.endedAt := by
  cases c with
  | mk caller ps t g st sa ea d => cases sa <;> cases ea <;> rfl

/-- `initiateCall` REST controller, private-call path (README lines 369-453): one
participant entry for the receiver with default status `pending`, call status default
`ringing`. Note: the controller performs no busy check against the in-memory
active-call registry. -/
def initiateCallPrivate (callerId receiverId : UserId) (t : String) : Call :=
  saveCall
    { caller := callerId
      participants := [{ user := receiverId, status := PStatus.pending,
                         joinedAt := none, leftAt := none }]
      ctype := t
      isGroupCall := false
      status := CStatus.ringing
      startedAt := none
      endedAt := none
      duration := 0 }

/-- `initiateCall` REST controller, group-call path: participants are the
conversation's participants minus the caller, all `pending`. -/
def initiateCallGroup (callerId : UserId) (convParticipants : List UserId)
    (t : String) : Call :=
  saveCall
    { caller := callerId
      participants := (convParticipants.filter (fun p => decide (p ≠ callerId))).map
        (fun p => { user := p, status := PStatus.pending, joinedAt := none, leftAt := none })
      ctype := t
      isGroupCall := true
      status := CStatus.ringing
      startedAt := none
      endedAt := none
      duration := 0 }

/-- `acceptCall` REST controller (README lines 458-516): 404 when the call does not
exist is modelled by the caller of this function; 403 when the user is not a
participant is the `none` result. Sets the actor's entry to `accepted`/`joinedAt`,
and only when the call is still `ringing` transitions it to `ongoing` with
`startedAt = now`; then `call.save()`. -/
def acceptCall (c : Call) (uid : UserId) (now : Time) : Option Call :=
  if c.participants.any (fun p => decide (p.user = uid)) then
    if c.status = CStatus.ringing then
      some (saveCall
        { c with
          participants := c.participants.map (fun p =>
            if p.user = uid then { p with status := PStatus.accepted, joinedAt := some now }
            else p)
          status := CStatus.ongoing
          startedAt := some now })
    else
      some (saveCall
        { c with
          participants := c.participants.map (fun p =>
            if p.user = uid then { p with status := PStatus.accepted, joinedAt := some now }
            else p) })
  else none

/-- `rejectCall` REST controller (README lines 521-579): sets the actor's entry to
`rejected`; if every participant entry is now `rejected`, sets call status `rejected`
and `endedAt = now`; then `call.save()`. -/
def rejectCall (c : Call) (uid : UserId) (now : Time) : Option Call :=
  if c.participants.any (fun p => decide (p.user = uid)) then
    if (c.participants.map (fun p =>
          if p.user = uid then { p with status := PStatus.rejected } else p)).all
        (fun p => decide (p.status = PStatus.rejected)) then
      some (saveCall
        { c with
          participants := c.participants.map (fun p =>
            if p.user = uid then { p with status := PStatus.rejected } else p)
          status := CStatus.rejected
          endedAt := some now })
    else
      some (saveCall
        { c with
          participants := c.participants.map (fun p =>
            if p.user = uid then { p with status := PStatus.rejected } else p) })
  else none

/-- `endCall` REST controller (README lines 584-640): status `ended`, `endedAt = now`,
`leftAt = now` for every participant lacking one; then `call.save()`. -/
def endCall (c : Call) (now : Time) : Call :=
  saveCall
    { c with
      status := CStatus.ended
      endedAt := some now
      participants := c.participants.map (fun p =>
        if p.leftAt = none then { p with leftAt := some now } else p) }

/-- `answer-call` handler's `Call.findByIdAndUpdate(callId, { status: 'ongoing',
startedAt: new Date() })` (part_001 lines 226-229): unconditional — it does not check
the current status, and being a query update it bypasses the pre-save hook. -/
def answerCallUpdate (c : Call) (now : Time) : Call :=
  { c with status := CStatus.ongoing, startedAt := some now }

/-- `socket.on('answer-call')` (part_001 lines 209-235): the database update runs
whenever the call's target user (`to`) is online. -/
def socketAnswerCall (pres : Presence) (c : Call) (toUser : UserId) (now : Time) : Call :=
  if (lookup pres toUser).isSome then answerCallUpdate c now else c

/-- `reject-call` handler's `Call.findByIdAndUpdate(callId, { status: 'rejected' })`
(part_001 lines 270-276): unconditional, touches neither participant entries nor
`endedAt`, bypasses the pre-save hook. -/
def rejectCallUpdate (c : Call) : Call :=
  { c with status := CStatus.rejected }

/-- Disconnect cleanup's `Call.findByIdAndUpdate(callId, { status: 'ended',
endedAt: new Date() })` (part_001 lines 429-437): bypasses the pre-save hook, so the
`duration` field is left untouched. -/
def disconnectCleanupUpdate (c : Call) (now : Time) : Call :=
  { c with status := CStatus.ended, endedAt := some now }

/-- `call-user` handler's offline branch `Call.findByIdAndUpdate(callId,
{ status: 'missed' })` (part_001 lines 198-204). -/
def missedCallUpdate (c : Call) : Call :=
  { c with status := CStatus.missed }

/-! ### C2: call status `rejected` iff all participants rejected -/

def c2pending : Call :=
  { caller := 1
    participants := [{ user := 2, status := PStatus.pending, joinedAt := none, leftAt := none },
                     { user := 3, status := PStatus.pending, joinedAt := none, leftAt := none }]
    ctype := "audio"
    isGroupCall := true
    status := CStatus.ringing
    startedAt := none
    endedAt := none
    duration := 0 }

/-- C2 counterexample: the socket `reject-call` handler persists call status
`rejected` after a single participant's reject of a three-way call whose entries are
all still `pending`, and it sets no `endedAt` — so `rejected` is reached without
every participant entry being `rejected`. -/
theorem socket_reject_sets_status_unconditionally :
    (rejectCallUpdate c2pending).status = CStatus.rejected ∧
    ¬(∀ p ∈ (rejectCallUpdate c2pending).participants, p.status = PStatus.rejected) ∧
    (rejectCallUpdate c2pending).endedAt = none := by
  decide

/-- C2 (amended): through the REST `rejectCall` controller the biconditional does
hold — a ringing call's persisted status becomes `rejected` iff every participant
entry is `rejected` after the actor's update, and in that case `endedAt = now`. The
socket `reject-call` path persists `rejected` unconditionally (counterexample above). -/
theorem rest_reject_status_iff_all_rejected (c : Call) (uid : UserId) (now : Time)
    (c' : Call) (hr : c.status = CStatus.ringing) (h : rejectCall c uid now = some c') :
    (c'.status = CStatus.rejected ↔ ∀ p ∈ c'.participants, p.status = PStatus.rejected) ∧
    (c'.status = CStatus.rejected → c'.endedAt = some now) := by
  unfold rejectCall at h
  split at h
  case isFalse => exact Option.noConfusion h
  case isTrue hmem =>
    split at h
    case isTrue hall =>
      injection h with h
      subst h
      rw [List.all_eq_true] at hall
      refine ⟨?_, fun _ => by rw [saveCall_endedAt]⟩
      constructor
      · intro _
        rw [saveCall_participants]
        intro p hp
        simpa using hall p hp
      · intro _
        rw [saveCall_status]
    case isFalse hall =>
      injection h with h
      subst h
      have hst : (saveCall
          { c with participants := c.participants.map (fun p =>
              if p.user = uid then { p with status := PStatus.rejected } else p) }).status
          = CStatus.ringing := by
        rw [saveCall_status, hr]
      rw [List.all_eq_true] at hall
      push_neg at hall
      refine ⟨?_, ?_⟩
      · rw [hst]
        constructor
        · intro habs; exact absurd habs (by simp)
        · intro hforall
          obtain ⟨p, hp, hps⟩ := hall
          rw [saveCall_participants] at hforall
          exact absurd (by simpa using hforall p hp) (by simpa using hps)
      · rw [hst]; intro habs; exact absurd habs (by simp)

def c2single : Call :=
  { caller := 1
    participants := [{ user := 2, status := PStatus.pending, joinedAt := none, leftAt := none }]
    ctype := "audio"
    isGroupCall := false
    status := CStatus.ringing
    startedAt := none
    endedAt := none
    duration := 0 }

def c2singleAfter : Call :=
  { caller := 1
    participants := [{ user := 2, status := PStatus.rejected, joinedAt := none, leftAt := none }]
    ctype := "audio"
    isGroupCall := false
    status := CStatus.rejected
    startedAt := none
    endedAt := some 100
    duration := 0 }

theorem rest_reject_status_iff_all_rejected_w :
    c2singleAfter.status = CStatus.rejected ∧ c2singleAfter.endedAt = some 100 :=
  ⟨(rest_reject_status_iff_all_rejected c2single 2 100 c2singleAfter rfl (by decide)).1.mpr
      (by decide),
   (rest_reject_status_iff_all_rejected c2single 2 100 c2singleAfter rfl (by decide)).2
      (by decide)⟩

/-! ### C3: ringing → ongoing fires exactly once -/

def c3ongoing : Call :=
  { caller := 1
    participants := [{ user := 2, status := PStatus.accepted, joinedAt := some 1000, leftAt := none }]
    ctype := "video"
    isGroupCall := false
    status := CStatus.ongoing
    startedAt := some 1000
    endedAt := none
    duration := 0 }

/-- C3 counterexample: the socket `answer-call` handler re-fires the transition — for
a call already `ongoing` with `startedAt = 1000`, a subsequent answer (the caller,
user 1, being online) re-sets `startedAt` to the new time. -/
theorem socket_answer_resets_startedAt :
    c3ongoing.status = CStatus.ongoing ∧
    c3ongoing.startedAt = some 1000 ∧
    (socketAnswerCall (connectHandler Presence.empty 1 10) c3ongoing 1 5000).startedAt
      = some 5000 ∧
    (socketAnswerCall (connectHandler Presence.empty 1 10) c3ongoing 1 5000).startedAt
      ≠ c3ongoing.startedAt := by
  decide

/-- C3 (amended): the REST `acceptCall` transition is first-accept-wins — an accept of
a `ringing` call sets `ongoing` and `startedAt = now`, while an accept of a call no
longer `ringing` leaves both the status and `startedAt` unchanged. The socket
`answer-call` path re-sets both unconditionally on every answer (counterexample
above). -/
theorem rest_accept_first_accept_wins (c : Call) (uid : UserId) (now : Time)
    (c' : Call) (h : acceptCall c uid now = some c') :
    (c.status = CStatus.ringing → c'.status = CStatus.ongoing ∧ c'.startedAt = some now) ∧
    (c.status ≠ CStatus.ringing → c'.status = c.status ∧ c'.startedAt = c.startedAt) := by
  unfold acceptCall at h
  split at h
  case isFalse => exact Option.noConfusion h
  case isTrue hmem =>
    split at h
    case isTrue hring =>
      injection h with h
      subst h
      refine ⟨fun _ => ⟨by rw [saveCall_status], by rw [saveCall_startedAt]⟩,
        fun hne => absurd hring hne⟩
    case isFalse hring =>
      injection h with h
      subst h
      exact ⟨fun habs => absurd habs hring,
        fun _ => ⟨by rw [saveCall_status], by rw [saveCall_startedAt]⟩⟩

def c3ring : Call :=
  { caller := 1
    participants := [{ user := 2, status := PStatus.pending, joinedAt := none, leftAt := none }]
    ctype := "audio"
    isGroupCall := false
    status := CStatus.ringing
    startedAt := none
    endedAt := none
    duration := 0 }

def c3after : Call :=
  { caller := 1
    participants := [{ user := 2, status := PStatus.accepted, joinedAt := some 50, leftAt := none }]
    ctype := "audio"
    isGroupCall := false
    status := CStatus.ongoing
    startedAt := some 50
    endedAt := none
    duration := 0 }

theorem rest_accept_first_accept_wins_w :
    c3after.status = CStatus.ongoing ∧ c3after.startedAt = some 50 :=
  (rest_accept_first_accept_wins c3ring 2 50 c3after (by decide)).1 rfl

/-! ## In-memory active-call registry (part_001 line 10 and the call handlers) -/

abbrev ActiveCalls := List (CallId × List UserId)

/-- `Set.add`: JS `Set` membership-preserving insertion. -/
def addUser (l : List UserId) (u : UserId) : List UserId :=
  if u ∈ l then l else l ++ [u]

/-- The `call-user` busy scan (part_001 lines 165-171): some active call's
participant set contains the user. -/
def isBusy (acs : ActiveCalls) (u : UserId) : Bool :=
  acs.any (fun e => decide (u ∈ e.2))

inductive CallUserOutcome where
  | busy (target : UserId) (callId : CallId)
  | unavailable (target : UserId)
  | ring (target : UserId) (callId : CallId)
deriving DecidableEq

structure CallUserResult where
  activeCalls : ActiveCalls
  outcome : CallUserOutcome
deriving DecidableEq

/-- `socket.on('call-user')` (part_001 lines 158-206): if the target is online and
busy, emit `user-busy` to the caller and return (registry untouched, no signal to the
target, no participant leg written anywhere); otherwise register/extend the active
call and signal the target; if the target is offline, emit `user-unavailable` (and
persist the call as `missed`, see `missedCallUpdate`). -/
def callUser (pres : Presence) (acs : ActiveCalls) (callerId userToCall : UserId)
    (callId : CallId) : CallUserResult :=
  match lookup pres userToCall with
  | some _ =>
    if isBusy acs userToCall then
      { activeCalls := acs, outcome := CallUserOutcome.busy userToCall callId }
    else
      { activeCalls :=
          (if acs.any (fun e => decide (e.1 = callId)) then acs
           else acs ++ [(callId, [callerId])]).map
            (fun e => if e.1 = callId then (e.1, addUser e.2 userToCall) else e)
        outcome := CallUserOutcome.ring userToCall callId }
  | none => { activeCalls := acs, outcome := CallUserOutcome.unavailable userToCall }

/-! ### C4: busy detection -/

/-- C4 counterexample: user 2 is an active participant of live call 7 in the
in-memory registry, yet the REST `initiateCall` naming user 2 as callee creates a
second `ringing` call whose leg for user 2 has status `pending` — not `busy` — so a
user can be a `pending` participant of two concurrently active calls, and no busy
notification replaces the ringing state on this path. -/
theorem initiate_creates_pending_leg_for_busy_user :
    isBusy [(7, [1, 2])] 2 = true ∧
    (∀ p ∈ (initiateCallPrivate 3 2 "audio").participants, p.status = PStatus.pending) ∧
    (initiateCallPrivate 3 2 "audio").status = CStatus.ringing ∧
    ¬(∃ p ∈ (initiateCallPrivate 3 2 "audio").participants, p.status = PStatus.busy) := by
  decide

/-- C4 (amended): the socket `call-user` handler does implement busy detection
against the in-memory registry — when the callee is online and already a participant
of any active call, the caller receives a `user-busy` outcome and the registry is
unchanged (the callee is not rung and not added to a second active call). But no
persisted participant leg is ever set to `busy`: the REST `initiateCall` performs no
busy check and always creates callee legs with status `pending` (private and group
paths alike). -/
theorem call_user_busy_check (pres : Presence) (acs : ActiveCalls)
    (callerId target : UserId) (callId : CallId)
    (hOn : (lookup pres target).isSome = true) (hBusy : isBusy acs target = true) :
    callUser pres acs callerId target callId
      = { activeCalls := acs, outcome := CallUserOutcome.busy target callId } ∧
    (∀ (a b : UserId) (t : String),
      ∀ p ∈ (initiateCallPrivate a b t).participants, p.status = PStatus.pending) ∧
    (∀ (a : UserId) (l : List UserId) (t : String),
      ∀ p ∈ (initiateCallGroup a l t).participants, p.status = PStatus.pending) := by
  refine ⟨?_, ?_, ?_⟩
  · obtain ⟨s, hs⟩ := Option.isSome_iff_exists.mp hOn
    unfold callUser
    rw [hs, if_pos hBusy]
  · intro a b t p hp
    unfold initiateCallPrivate at hp
    rw [saveCall_participants] at hp
    simp only [List.mem_singleton] at hp
    subst hp
    rfl
  · intro a l t p hp
    unfold initiateCallGroup at hp
    rw [saveCall_participants] at hp
    simp only [List.mem_map] at hp
    obtain ⟨x, _, hx⟩ := hp
    subst hx
    rfl

def c4pres : Presence := connectHandler Presence.empty 2 20

theorem call_user_busy_check_w :
    callUser c4pres [(7, [1, 2])] 3 2 9
      = { activeCalls := [(7, [1, 2])], outcome := CallUserOutcome.busy 2 9 } :=
  (call_user_busy_check c4pres [(7, [1, 2])] 3 2 9 (by decide) (by decide)).1

/-! ### C9: reject-call / end-call / user-busy delete the whole active-call entry -/

/-- `if (activeCalls.has(callId)) activeCalls.delete(callId)` — executed identically
by `reject-call` (lines 264-267), `end-call` (lines 292-295) and `user-busy`
(lines 311-314). -/
def cleanupActiveCall (acs : ActiveCalls) (callId : CallId) : ActiveCalls :=
  if acs.any (fun e => decide (e.1 = callId)) then
    acs.filter (fun e => decide (e.1 ≠ callId))
  else acs

theorem cleanupActiveCall_eq_filter (acs : ActiveCalls) (cid : CallId) :
    cleanupActiveCall acs cid = acs.filter (fun e => decide (e.1 ≠ cid)) := by
  unfold cleanupActiveCall
  split
  · rfl
  case isFalse h =>
    symm
    apply List.filter_eq_self.mpr
    intro e he
    simp only [List.any_eq_true, decide_eq_true_eq, not_exists] at h
    simp only [decide_eq_true_eq]
    intro hc
    exact absurd ⟨he, hc⟩ (h e)

/-- C9 (amended): each of the three cleanup events removes the entire in-memory
entry for `callId` — not just the acting participant's leg — so afterwards a user is
considered busy by `call-user` only on account of some other live entry; in
particular a participant belonging to no other entry is no longer busy. (The
unconditional reading fails when a remaining participant is also in another live
entry — reachable for a caller, since `call-user` busy-checks only the callee; see
the counterexample.) -/
theorem call_cleanup_removes_entire_entry (acs : ActiveCalls) (cid : CallId)
    (u : UserId) (h : ∀ e ∈ acs, e.1 ≠ cid → u ∉ e.2) :
    (∀ e ∈ cleanupActiveCall acs cid, e.1 ≠ cid) ∧
    isBusy (cleanupActiveCall acs cid) u = false := by
  rw [cleanupActiveCall_eq_filter]
  constructor
  · intro e he
    have := (List.mem_filter.mp he).2
    simpa using this
  · rw [isBusy]
    apply List.any_eq_false.mpr
    intro e he
    obtain ⟨h1, h2⟩ := List.mem_filter.mp he
    simp only [decide_eq_true_eq] at h2 ⊢
    exact h e h1 h2

theorem call_cleanup_removes_entire_entry_w :
    isBusy (cleanupActiveCall [(7, [1, 2]), (8, [3])] 7) 2 = false :=
  (call_cleanup_removes_entire_entry [(7, [1, 2]), (8, [3])] 7 2 (by decide)).2

def c9pres : Presence :=
  connectHandler (connectHandler (connectHandler Presence.empty 1 10) 2 20) 3 30

def c9acs1 : ActiveCalls := (callUser c9pres [] 1 2 7).activeCalls

def c9acs2 : ActiveCalls := (callUser c9pres c9acs1 1 3 8).activeCalls

/-- C9 counterexample to the unconditional consequent: user 1 calls user 2 (call 7),
then — while still in call 7, since `call-user` busy-checks only the callee — calls
user 3 (call 8). After call 7's entry is removed by a reject/end/user-busy cleanup,
its remaining participant user 1 is still considered busy by the busy scan, via
call 8. -/
theorem caller_still_busy_after_other_call_cleanup :
    c9acs2 = [(7, [1, 2]), (8, [1, 3])] ∧
    (1 : UserId) ∈ [1, 2] ∧
    cleanupActiveCall c9acs2 7 = [(8, [1, 3])] ∧
    isBusy (cleanupActiveCall c9acs2 7) 1 = true := by
  decide

/-! ## Message delivery pipeline (part_001 lines 45-153, messageController.js,
Message and Conversation models) -/

inductive MsgStatus where
  | sent
  | delivered
  | read
deriving DecidableEq

/-- Position of a status in the sent → delivered → read progression. -/
def MsgStatus.rank : MsgStatus → Nat
  | .sent => 0
  | .delivered => 1
  | .read => 2

structure Msg where
  id : MsgId
  conversation : ConvId
  sender : UserId
  status : MsgStatus
  deliveredTo : List (UserId × Time)
  readBy : List (UserId × Time)
deriving DecidableEq

structure Conv where
  participants : List UserId
  unreadCount : List (UserId × Nat)
  lastMessage : Option MsgId
deriving DecidableEq

structure Db where
  conversations : List (ConvId × Conv)
  messages : List Msg
  nextMsgId : MsgId
deriving DecidableEq

/-- Outbound events observable at the sockets. -/
inductive Emit where
  | newMessage (conv : ConvId) (msg : MsgId)
  | statusUpdate (conv : ConvId) (msg : MsgId) (st : MsgStatus)
  | errorToSender (text : String)
  | messagesReadEvt (conv : ConvId) (reader : UserId)
deriving DecidableEq

/-- Lines 61-69: set `lastMessage` and increment `unreadCount` for every participant
other than the sender. -/
def bumpUnread (conv : Conv) (senderId : UserId) (mid : MsgId) : Conv :=
  { conv with
    lastMessage := some mid
    unreadCount := conv.participants.foldl (fun uc p =>
      if p = senderId then uc else alSet uc p ((alLookup uc p).getD 0 + 1))
      conv.unreadCount }

/-- Lines 78-87: `deliveredTo` entries for every participant other than the sender
currently present in `onlineUsers`. -/
def deliveredList (conv : Conv) (pres : Presence) (senderId : UserId) (now : Time) :
    List (UserId × Time) :=
  (conv.participants.filter (fun p => decide (p ≠ senderId) && (lookup pres p).isSome)).map
    (fun p => (p, now))

/-- Lines 89-96: when at least one recipient was online, the freshly created message
is promoted to `delivered` with its `deliveredTo` entries. -/
def promoteDelivered (msg : Msg) (d : List (UserId × Time)) : Msg :=
  if 0 < d.length then { msg with status := MsgStatus.delivered, deliveredTo := d }
  else msg

/-- `socket.on('send-message')` (part_001 lines 45-101). `convSaveOk` injects the
outcome of `await conversation.save()` (line 69): when it throws, control jumps to
the catch block, which logs and emits an `error` event to the sender — the message
created by line 53 stays persisted, and the `new-message` publish (line 76) and the
delivery marking (lines 78-96) never run. When the conversation does not exist the
handler silently returns (line 50): no error event, no side effect. The handler
never checks that the sender is a participant of the conversation. -/
def socketSendMessage (db : Db) (pres : Presence) (senderId : UserId) (convId : ConvId)
    (now : Time) (convSaveOk : Bool) : Db × List Emit :=
  match alLookup db.conversations convId with
  | none => (db, [])
  | some conv =>
    let mid := db.nextMsgId
    let msg : Msg := { id := mid, conversation := convId, sender := senderId,
                       status := MsgStatus.sent, deliveredTo := [], readBy := [] }
    let db1 : Db := { db with messages := db.messages ++ [msg], nextMsgId := mid + 1 }
    if convSaveOk then
      let db2 : Db := { db1 with
        conversations := alSet db1.conversations convId (bumpUnread conv senderId mid) }
      let d := deliveredList conv pres senderId now
      if 0 < d.length then
        ({ db2 with messages := db2.messages.map (fun m0 =>
             if m0.id = mid then promoteDelivered msg d else m0) },
         [Emit.newMessage convId mid, Emit.statusUpdate convId mid MsgStatus.delivered])
      else
        (db2, [Emit.newMessage convId mid])
    else
      (db1, [Emit.errorToSender "Failed to send message"])

inductive SendError where
  | notFound
  | unauthorized
deriving DecidableEq

/-- `sendMessage` REST controller (messageController.js lines 67-131): 404 when the
conversation does not exist, 403 when the sender is not a participant — in both
cases before any write; otherwise create the message, update the conversation and
publish `new-message` (no delivery marking on this path). -/
def restSendMessage (db : Db) (senderId : UserId) (convId : ConvId) :
    Except SendError (Db × List Emit) :=
  match alLookup db.conversations convId with
  | none => Except.error SendError.notFound
  | some conv =>
    if senderId ∈ conv.participants then
      Except.ok
        ({ conversations :=
             alSet db.conversations convId (bumpUnread conv senderId db.nextMsgId)
           messages := db.messages ++
             [{ id := db.nextMsgId, conversation := convId, sender := senderId,
                status := MsgStatus.sent, deliveredTo := [], readBy := [] }]
           nextMsgId := db.nextMsgId + 1 },
         [Emit.newMessage convId db.nextMsgId])
    else Except.error SendError.unauthorized

/-! ### C5: unauthorized / not-found handling of message submissions -/

def c5db : Db :=
  { conversations := [(5, { participants := [1, 2], unreadCount := [], lastMessage := none })]
    messages := []
    nextMsgId := 0 }

def c5conv : Conv := { participants := [1, 2], unreadCount := [], lastMessage := none }

/-- C5 counterexample: user 9 is not a participant of conversation 5, yet the socket
`send-message` handler persists and publishes the message with no Unauthorized error
(side effects included: the unread counters change); and a submission naming the
nonexistent conversation 999 is dropped silently — no structured error event is
reported to the originating connection. -/
theorem socket_send_no_participant_check :
    (9 : UserId) ∉ c5conv.participants ∧
    (socketSendMessage c5db Presence.empty 9 5 100 true).1.messages
      = [{ id := 0, conversation := 5, sender := 9, status := MsgStatus.sent,
           deliveredTo := [], readBy := [] }] ∧
    (socketSendMessage c5db Presence.empty 9 5 100 true).2 = [Emit.newMessage 5 0] ∧
    alLookup (socketSendMessage c5db Presence.empty 9 5 100 true).1.conversations 5
      = some { participants := [1, 2], unreadCount := [(2, 1), (1, 1)], lastMessage := some 0 } ∧
    socketSendMessage c5db Presence.empty 7 999 100 true = (c5db, []) := by
  decide

/-- C5 (amended): the REST `sendMessage` controller does implement the claim — a
missing conversation is rejected with NotFound, a non-participant sender with
Unauthorized, both as structured error responses with no side effects. The socket
`send-message` handler does not: it performs no participant check at all (a
non-participant's message is persisted and published, see the counterexample) and on
a missing conversation it silently returns with no error event (and no side
effects). -/
theorem send_message_error_paths (db : Db) (pres : Presence) (s : UserId)
    (cId : ConvId) (t : Time) (ok : Bool) :
    (alLookup db.conversations cId = none →
      restSendMessage db s cId = Except.error SendError.notFound ∧
      socketSendMessage db pres s cId t ok = (db, [])) ∧
    (∀ conv, alLookup db.conversations cId = some conv → s ∉ conv.participants →
      restSendMessage db s cId = Except.error SendError.unauthorized) := by
  constructor
  · intro h
    constructor
    · unfold restSendMessage
      rw [h]
    · unfold socketSendMessage
      rw [h]
  · intro conv h hs
    unfold restSendMessage
    rw [h]
    simp only [if_neg hs]

theorem send_message_error_paths_w :
    restSendMessage c5db 9 5 = Except.error SendError.unauthorized :=
  (send_message_error_paths c5db Presence.empty 9 5 0 true).2 c5conv (by decide) (by decide)

/-! ### C6: conversation-save failure after the message is created -/

/-- C6 counterexample: with conversation 5 present and sender 1 a participant, a
`conversation.save()` failure after the message is created makes the handler emit a
send-failure error to the sender and skip the `new-message` publish entirely — the
claim's "still published, delivery proceeds, no send failure reported" is false.
(The message is indeed not rolled back; that part holds.) -/
theorem conv_save_failure_blocks_publish :
    (socketSendMessage c5db Presence.empty 1 5 10 false).2
      = [Emit.errorToSender "Failed to send message"] ∧
    Emit.newMessage 5 0 ∉ (socketSendMessage c5db Presence.empty 1 5 10 false).2 ∧
    (socketSendMessage c5db Presence.empty 1 5 10 false).1.messages
      = [{ id := 0, conversation := 5, sender := 1, status := MsgStatus.sent,
           deliveredTo := [], readBy := [] }] := by
  decide

/-- C6 (amended): when the persistence of the conversation aggregate update fails
after the message record is durably created, the handler logs and aborts the rest of
the pipeline: the sole emitted event is the send-failure error to the sender — the
message is NOT published to the conversation fan-out group and no delivery marking
happens — while the created message itself is not rolled back (it stays appended to
the store) and the conversation aggregate is unchanged. -/
theorem conv_save_failure_behavior (db : Db) (pres : Presence) (s : UserId)
    (cId : ConvId) (t : Time) (conv : Conv)
    (h : alLookup db.conversations cId = some conv) :
    (socketSendMessage db pres s cId t false).2
      = [Emit.errorToSender "Failed to send message"] ∧
    (socketSendMessage db pres s cId t false).1.messages
      = db.messages ++ [{ id := db.nextMsgId, conversation := cId, sender := s,
                          status := MsgStatus.sent, deliveredTo := [], readBy := [] }] ∧
    (socketSendMessage db pres s cId t false).1.conversations = db.conversations := by
  unfold socketSendMessage
  rw [h]
  simp

theorem conv_save_failure_behavior_w :
    (socketSendMessage c5db Presence.empty 1 5 10 false).2
      = [Emit.errorToSender "Failed to send message"] :=
  (conv_save_failure_behavior c5db Presence.empty 1 5 10 c5conv (by decide)).1

/-! ## Read receipts (part_001 lines 120-153; messageController.js lines 274-317) -/

/-- Effect on a single message document of the `updateMany` shared by the socket
`messages-read` handler (lines 122-137) and the REST `markAsRead` controller
(lines 279-294): filter `{conversation, sender ≠ reader, status ≠ 'read'}`, update
`$set {status: 'read'}` and `$push {readBy: {user, readAt}}`. -/
def markReadMsg (m : Msg) (convId : ConvId) (readerId : UserId) (now : Time) : Msg :=
  if m.conversation = convId ∧ m.sender ≠ readerId ∧ m.status ≠ MsgStatus.read then
    { m with status := MsgStatus.read, readBy := m.readBy ++ [(readerId, now)] }
  else m

structure ReadEvent where
  conv : ConvId
  reader : UserId
  time : Time
deriving DecidableEq

def runReads (m : Msg) (evs : List ReadEvent) : Msg :=
  evs.foldl (fun m0 e => markReadMsg m0 e.conv e.reader e.time) m

/-- `socket.on('messages-read')` (lines 120-153): the bulk update over the store,
the unread-counter reset for the reader, and the `messages-read` event. -/
def messagesRead (db : Db) (convId : ConvId) (readerId : UserId) (now : Time) :
    Db × List Emit :=
  let db1 : Db := { db with
    messages := db.messages.map (fun m => markReadMsg m convId readerId now) }
  match alLookup db1.conversations convId with
  | some conv =>
    ({ db1 with conversations := (alSet db1.conversations convId
        ({ conv with unreadCount := alSet conv.unreadCount readerId 0 })) },
     [Emit.messagesReadEvt convId readerId])
  | none => (db1, [Emit.messagesReadEvt convId readerId])

theorem markReadMsg_rank_le (m : Msg) (c : ConvId) (r : UserId) (t : Time) :
    m.status.rank ≤ (markReadMsg m c r t).status.rank := by
  unfold markReadMsg
  split
  · cases m.status <;> simp [MsgStatus.rank]
  · exact Nat.le_refl _

theorem markReadMsg_read_fix (m : Msg) (c : ConvId) (r : UserId) (t : Time)
    (h : m.status = MsgStatus.read) : markReadMsg m c r t = m := by
  unfold markReadMsg
  rw [if_neg]
  intro hc
  exact hc.2.2 h

theorem runReads_rank_le (m : Msg) (evs : List ReadEvent) :
    m.status.rank ≤ (runReads m evs).status.rank := by
  induction evs generalizing m with
  | nil => exact Nat.le_refl _
  | cons e rest ih =>
    exact Nat.le_trans (markReadMsg_rank_le m e.conv e.reader e.time)
      (ih (markReadMsg m e.conv e.reader e.time))

theorem runReads_read_fix (m : Msg) (evs : List ReadEvent)
    (h : m.status = MsgStatus.read) : runReads m evs = m := by
  induction evs with
  | nil => rfl
  | cons e rest ih =>
    show runReads (markReadMsg m e.conv e.reader e.time) rest = m
    rw [markReadMsg_read_fix m e.conv e.reader e.time h]
    exact ih

theorem promoteDelivered_sent_forward (msg : Msg) (d : List (UserId × Time))
    (h : msg.status = MsgStatus.sent) :
    msg.status.rank ≤ (promoteDelivered msg d).status.rank ∧
    ((promoteDelivered msg d).status = MsgStatus.sent ∨
     (promoteDelivered msg d).status = MsgStatus.delivered) := by
  unfold promoteDelivered
  split
  · rw [h]; exact ⟨Nat.zero_le _, Or.inr rfl⟩
  · rw [h]; exact ⟨Nat.le_refl _, Or.inl rfl⟩

theorem messagesRead_messages (db : Db) (c : ConvId) (r : UserId) (t : Time) :
    (messagesRead db c r t).1.messages
      = db.messages.map (fun m => markReadMsg m c r t) := by
  unfold messagesRead
  dsimp only
  cases h : alLookup db.conversations c with
  | none => rfl
  | some conv => rfl

/-- C7: a message's status only advances through sent → delivered → read and never
regresses. Delivery promotion happens only inside the send pipeline on the freshly
created `sent` message (`promoteDelivered`), and advances it forward; every read
event (`markReadMsg`, the per-message effect of both mark-as-read code paths)
applied by the store-wide `messagesRead` update is rank-non-decreasing; and once a
message is `read`, any further sequence of read events leaves it unchanged. -/
theorem message_status_monotonic :
    (∀ (msg : Msg) (d : List (UserId × Time)), msg.status = MsgStatus.sent →
      msg.status.rank ≤ (promoteDelivered msg d).status.rank) ∧
    (∀ (m : Msg) (c : ConvId) (r : UserId) (t : Time),
      m.status.rank ≤ (markReadMsg m c r t).status.rank) ∧
    (∀ (m : Msg) (evs : List ReadEvent), m.status.rank ≤ (runReads m evs).status.rank) ∧
    (∀ (m : Msg) (evs : List ReadEvent), m.status = MsgStatus.read → runReads m evs = m) ∧
    (∀ (db : Db) (c : ConvId) (r : UserId) (t : Time),
      (messagesRead db c r t).1.messages
        = db.messages.map (fun m => markReadMsg m c r t)) :=
  ⟨fun msg d h => (promoteDelivered_sent_forward msg d h).1,
   markReadMsg_rank_le, runReads_rank_le, runReads_read_fix, messagesRead_messages⟩

def c7m : Msg :=
  { id := 0, conversation := 5, sender := 1, status := MsgStatus.read,
    deliveredTo := [], readBy := [(2, 3)] }

theorem message_status_monotonic_w :
    runReads c7m [⟨5, 3, 9⟩] = c7m :=
  message_status_monotonic.2.2.2.1 c7m [⟨5, 3, 9⟩] rfl

/-! ### C10: `readBy` accumulates at most one entry -/

/-- Invariant carried along read events: at most one `readBy` entry, and a message
that is not yet `read` has none (the same update that appends the entry also sets
the status to `read`). -/
def readInv (m : Msg) : Prop :=
  m.readBy.length ≤ 1 ∧ (m.status ≠ MsgStatus.read → m.readBy = [])

theorem readInv_step (m : Msg) (c : ConvId) (r : UserId) (t : Time)
    (h : readInv m) : readInv (markReadMsg m c r t) := by
  unfold markReadMsg
  split
  case isTrue hc =>
    have hb : m.readBy = [] := h.2 hc.2.2
    constructor
    · simp [hb]
    · intro habs
      exact absurd rfl habs
  case isFalse => exact h

theorem readInv_run (m : Msg) (evs : List ReadEvent) (h : readInv m) :
    readInv (runReads m evs) := by
  induction evs generalizing m with
  | nil => exact h
  | cons e rest ih =>
    exact ih (markReadMsg m e.conv e.reader e.time) (readInv_step m e.conv e.reader e.time h)

/-- C10: starting from a freshly created message (empty `readBy`), any sequence of
mark-read operations leaves at most one `readBy` entry in total, and whenever an
entry exists the status is `read` — so the first recording reader also flipped the
status, and every later mark-read matches nothing and appends nothing. -/
theorem readBy_at_most_one_entry (m : Msg) (evs : List ReadEvent)
    (h0 : m.readBy = []) :
    (runReads m evs).readBy.length ≤ 1 ∧
    ((runReads m evs).readBy ≠ [] → (runReads m evs).status = MsgStatus.read) := by
  have h : readInv m := ⟨by simp [h0], fun _ => h0⟩
  have h' := readInv_run m evs h
  refine ⟨h'.1, fun hne => ?_⟩
  by_contra hs
  exact hne (h'.2 hs)

def c10m : Msg :=
  { id := 0, conversation := 5, sender := 1, status := MsgStatus.sent,
    deliveredTo := [], readBy := [] }

theorem readBy_at_most_one_entry_w :
    (runReads c10m [⟨5, 2, 7⟩, ⟨5, 3, 8⟩]).readBy.length ≤ 1 :=
  (readBy_at_most_one_entry c10m [⟨5, 2, 7⟩, ⟨5, 3, 8⟩] rfl).1

/-! ### C8: duration = endedAt − startedAt at persistence time -/

def c8call : Call :=
  disconnectCleanupUpdate (answerCallUpdate (initiateCallPrivate 1 2 "audio") 1000) 6000

/-- C8 counterexample: a call created by `initiateCall`, answered through the socket
`answer-call` path at t = 1000 ms and ended by the disconnect-cleanup path at
t = 6000 ms has both timestamps set but `duration = 0`, not the elapsed 5 seconds:
both socket paths persist via `findByIdAndUpdate`, which bypasses the pre-save
duration hook. -/
theorem disconnect_cleanup_skips_duration_hook :
    c8call.startedAt = some 1000 ∧
    c8call.endedAt = some 6000 ∧
    c8call.duration = 0 ∧
    Int.fdiv ((6000 : Int) - (1000 : Int)) 1000 = 5 ∧
    c8call.duration ≠ Int.fdiv ((6000 : Int) - (1000 : Int)) 1000 := by
  decide

/-- C8 (amended): the duration invariant holds exactly for records persisted through
a document `save()` — the pre-save hook computes
`duration = ⌊(endedAt − startedAt) / 1000⌋` whenever both timestamps are set, and the
result is non-negative whenever `endedAt ≥ startedAt` (the REST end path goes through
`saveCall`). The socket persistence paths (`answer-call`, `reject-call`, disconnect
cleanup) use `findByIdAndUpdate`, which leaves `duration` untouched, so a call
persisted as ended by disconnect cleanup keeps its stale duration. -/
theorem duration_hook_semantics (c : Call) (s e : Time) (now : Time)
    (hs : c.startedAt = some s) (he : c.endedAt = some e) :
    (saveCall c).duration = Int.fdiv ((e : Int) - (s : Int)) 1000 ∧
    (s ≤ e → 0 ≤ (saveCall c).duration) ∧
    (endCall c now).duration
      = Int.fdiv (((now : Int)) - (s : Int)) 1000 ∧
    (disconnectCleanupUpdate c now).duration = c.duration ∧
    (answerCallUpdate c now).duration = c.duration ∧
    (rejectCallUpdate c).duration = c.duration := by
  have hd : (saveCall c).duration = Int.fdiv ((e : Int) - (s : Int)) 1000 := by
    unfold saveCall preSaveHook
    rw [hs, he]
  refine ⟨hd, ?_, ?_, rfl, rfl, rfl⟩
  · intro hse
    rw [hd]
    have h0 : (0 : Int) ≤ (e : Int) - (s : Int) :=
      sub_nonneg.mpr (by exact_mod_cast hse)
    exact Int.fdiv_nonneg h0 (by norm_num)
  · unfold endCall saveCall preSaveHook
    rw [hs]

theorem duration_hook_semantics_w :
    (saveCall c8call).duration = Int.fdiv ((6000 : Int) - (1000 : Int)) 1000 ∧
    (disconnectCleanupUpdate c8call 7000).duration = c8call.duration :=
  ⟨(duration_hook_semantics c8call 1000 6000 7000 rfl rfl).1,
   (duration_hook_semantics c8call 1000 6000 7000 rfl rfl).2.2.2.1⟩

end ChatBackend
